import Mathlib

/-!
Verification of the workflow-orchestration core of the AIMobileGameGenerator
backend: the 12-step game state machine, the similarity / regeneration engine,
the learning-feedback weight updates, the Celery task layer, and the
orchestration discipline.  Every definition is a shallow embedding of the
corresponding Python function; floating-point values are modelled as rationals
and Python dicts as structures with optional fields or association lists.
-/

namespace GameGen

/-! ## State machine (`app/core/state_machine.py`) -/

/-- Embeds `TransitionResult` (state_machine.py).  The result of a
transition-permission check: whether it is allowed, the endpoints, and an
optional denial reason. -/
structure TransitionResult where
  allowed : Bool
  from_step : Int
  to_step : Int
  reason : Option String
deriving Repr, DecidableEq

/-- `len(STEP_DEFINITIONS)`: the workflow has 12 steps. -/
def total_steps : Int := 12

/-- Embeds `GameStateMachine.can_transition_to` (state_machine.py lines
227-256).  `current_step` is the machine state, `target_step` the requested
step.  Out-of-range targets and non-successor targets are denied with a
reason; only `current_step + 1` within `1..12` is allowed. -/
def can_transition_to (current_step target_step : Int) : TransitionResult :=
  if target_step ≤ 0 ∨ target_step > total_steps then
    { allowed := false
      from_step := current_step
      to_step := target_step
      reason := some "Invalid step number" }
  else if target_step ≠ current_step + 1 then
    { allowed := false
      from_step := current_step
      to_step := target_step
      reason := some "Cannot skip steps" }
  else
    { allowed := true
      from_step := current_step
      to_step := target_step
      reason := none }

/-! ## Similarity engine (`app/services/similarity_service.py`) -/

/-- `SIMILARITY_THRESHOLD = 0.80` (similarity_service.py line 21). -/
def SIMILARITY_THRESHOLD : ℚ := 4 / 5

/-- `MAX_REGENERATION_ATTEMPTS = 5` (similarity_service.py line 22). -/
def MAX_REGENERATION_ATTEMPTS : Nat := 5

/-- Embeds the `core_loop` sub-dict of a GDD spec.  Missing keys are `none`
(`dict.get` returns `None`); `session_length_target_seconds` defaults to 0
as in `loop.get("session_length_target_seconds", 0)`. -/
structure CoreLoop where
  primary_action : Option String
  reward_trigger : Option String
  session_length_target_seconds : Int
deriving Repr, DecidableEq

/-- Embeds the `asset_style_guide` sub-dict: three optional style keys plus a
`color_palette` dict modelled as an association list (a Python dict has
pairwise-distinct keys). -/
structure VisualStyle where
  art_style : Option String
  ui_theme : Option String
  audio_style : Option String
  color_palette : List (String × String)
deriving Repr, DecidableEq

/-- Embeds the `difficulty_curve` sub-dict; only its `factors` list is read
by the similarity service (`diff.get("factors", [])`). -/
structure DifficultyCurve where
  factors : List String
deriving Repr, DecidableEq

/-- Embeds the `economy` sub-dict; `earn_per_level` defaults to 0. -/
structure Economy where
  currency : Option String
  earn_per_level : Int
deriving Repr, DecidableEq

/-- Embeds the parts of a GDD spec read by `_calculate_similarity`.  A `none`
field models a missing (or empty, hence falsy) sub-dict. -/
structure GddSpec where
  core_loop : Option CoreLoop
  asset_style_guide : Option VisualStyle
  difficulty_curve : Option DifficultyCurve
  economy : Option Economy
deriving Repr, DecidableEq

/-- Embeds the columns of `Game` (app/models/game.py) consumed by the
similarity service.  `gdd_spec = none` models a NULL spec. -/
structure Game where
  id : Nat
  name : String
  genre : String
  status : String
  selected_mechanics : List String
  gdd_spec : Option GddSpec
deriving Repr, DecidableEq

/-- Embeds `SimilarityService._jaccard_similarity` (lines 211-225): 0 when
both lists are empty, otherwise |A ∩ B| / |A ∪ B| on the underlying sets. -/
def jaccard_similarity (la lb : List String) : ℚ :=
  if la = [] ∧ lb = [] then 0
  else
    let sa := la.toFinset
    let sb := lb.toFinset
    let inter := (sa ∩ sb).card
    let uni := (sa ∪ sb).card
    if uni = 0 then 0 else (inter : ℚ) / (uni : ℚ)

/-- Embeds `SimilarityService._compare_core_loop` (lines 227-252): fraction of
the three checks (primary action, reward trigger, session length within 30s)
that match; 0 when either loop dict is missing. -/
def compare_core_loop (a b : Option CoreLoop) : ℚ :=
  match a, b with
  | some la, some lb =>
      let s1 : ℚ := if la.primary_action = lb.primary_action then 1 else 0
      let s2 : ℚ := if la.reward_trigger = lb.reward_trigger then 1 else 0
      let s3 : ℚ :=
        if (la.session_length_target_seconds - lb.session_length_target_seconds).natAbs ≤ 30
        then 1 else 0
      (s1 + s2 + s3) / 3
  | _, _ => 0

/-- First value bound to a key in an association list (Python `dict.get`). -/
def assoc_find : List (String × String) → String → Option String
  | [], _ => none
  | kv :: rest, k => if kv.1 = k then some kv.2 else assoc_find rest k

/-- Embeds `SimilarityService._compare_visual_style` (lines 254-289): three
exact-match checks plus, when both palettes are non-empty, a palette-overlap
fraction with denominator `max |A| |B| 1`; averaged over the checks made. -/
def compare_visual_style (a b : Option VisualStyle) : ℚ :=
  match a, b with
  | some sa, some sb =>
      let s1 : ℚ := if sa.art_style = sb.art_style then 1 else 0
      let s2 : ℚ := if sa.ui_theme = sb.ui_theme then 1 else 0
      let s3 : ℚ := if sa.audio_style = sb.audio_style then 1 else 0
      if sa.color_palette ≠ [] ∧ sb.color_palette ≠ [] then
        let matching : ℚ :=
          ((sa.color_palette.filter
            (fun kv => assoc_find sb.color_palette kv.1 == some kv.2)).length : ℚ)
        let total : ℚ :=
          ((max (max sa.color_palette.length sb.color_palette.length) 1 : Nat) : ℚ)
        (s1 + s2 + s3 + matching / total) / 4
      else
        (s1 + s2 + s3) / 3
  | _, _ => 0

/-- Embeds `SimilarityService._compare_difficulty` (lines 291-300): Jaccard
similarity of the difficulty-factor sets; 0 when either curve is missing. -/
def compare_difficulty (a b : Option DifficultyCurve) : ℚ :=
  match a, b with
  | some da, some db => jaccard_similarity da.factors db.factors
  | _, _ => 0

/-- Embeds `SimilarityService._compare_economy` (lines 302-324): currency
match plus earn-rate-within-20% check (skipped when either rate is 0, the
Python falsy check), averaged over 2 checks. -/
def compare_economy (a b : Option Economy) : ℚ :=
  match a, b with
  | some ea, some eb =>
      let s1 : ℚ := if ea.currency = eb.currency then 1 else 0
      let s2 : ℚ :=
        if ea.earn_per_level ≠ 0 ∧ eb.earn_per_level ≠ 0 ∧
            (4 : ℚ) / 5 ≤ ((min ea.earn_per_level eb.earn_per_level : Int) : ℚ) /
              ((max ea.earn_per_level eb.earn_per_level : Int) : ℚ)
        then 1 else 0
      (s1 + s2) / 2
  | _, _ => 0

/-- Stop words removed by `_name_similarity` (line 332). -/
def common_words : List String := ["game", "the", "a", "an", "of", "in", "on"]

/-- Whitespace characters recognised by Python `str.split()`. -/
def is_space (c : Char) : Bool := c = ' ' ∨ c = '\t' ∨ c = '\n' ∨ c = '\r'

/-- Splits a character list on whitespace runs, dropping empty pieces,
accumulating the current word in reverse — the behaviour of Python
`str.split()` with no separator. -/
def split_words_aux : List Char → List Char → List String
  | [], acc => if acc.isEmpty then [] else [String.mk acc.reverse]
  | c :: rest, acc =>
      if is_space c then
        if acc.isEmpty then split_words_aux rest []
        else String.mk acc.reverse :: split_words_aux rest []
      else split_words_aux rest (c :: acc)

/-- Python `str.split()` on a string. -/
def split_words (s : String) : List String := split_words_aux s.data []

/-- Python `str.lower()` (ASCII case folding suffices for the game names the
service compares). -/
def lower_str (s : String) : String := String.mk (s.data.map Char.toLower)

/-- Lower-cased whitespace-separated words of a name with stop words removed
(`name.lower().split()` minus `common_words`). -/
def significant_words (name : String) : List String :=
  (split_words (lower_str name)).filter (fun w => !(common_words.contains w))

/-- Embeds `SimilarityService._name_similarity` (lines 326-339): Jaccard
similarity of significant name words; 0 when either word set is empty. -/
def name_similarity (na nb : String) : ℚ :=
  let wa := significant_words na
  let wb := significant_words nb
  if wa = [] ∨ wb = [] then 0
  else jaccard_similarity wa wb

/-- The per-factor breakdown produced by `_calculate_similarity`. -/
structure SimilarityBreakdown where
  genre : ℚ
  mechanics : ℚ
  core_loop : ℚ
  visual_style : ℚ
  difficulty : ℚ
  economy : ℚ
  name : ℚ
deriving Repr, DecidableEq

/-- Per-factor scores of `SimilarityService._calculate_similarity`
(lines 142-209).  A missing `gdd_spec` behaves as an empty dict
(`game.gdd_spec or {}`), making every sub-dict missing. -/
def similarity_breakdown (ga gb : Game) : SimilarityBreakdown :=
  { genre := if ga.genre = gb.genre then 1 else 0
    mechanics := jaccard_similarity ga.selected_mechanics gb.selected_mechanics
    core_loop := compare_core_loop (ga.gdd_spec.bind GddSpec.core_loop)
      (gb.gdd_spec.bind GddSpec.core_loop)
    visual_style := compare_visual_style (ga.gdd_spec.bind GddSpec.asset_style_guide)
      (gb.gdd_spec.bind GddSpec.asset_style_guide)
    difficulty := compare_difficulty (ga.gdd_spec.bind GddSpec.difficulty_curve)
      (gb.gdd_spec.bind GddSpec.difficulty_curve)
    economy := compare_economy (ga.gdd_spec.bind GddSpec.economy)
      (gb.gdd_spec.bind GddSpec.economy)
    name := name_similarity ga.name gb.name }

/-- The weighted overall similarity of `_calculate_similarity` (lines
204-207): genre 0.20, mechanics 0.25, core loop 0.15, visual style 0.15,
difficulty 0.10, economy 0.10, name 0.05. -/
def calculate_similarity (ga gb : Game) : ℚ :=
  let b := similarity_breakdown ga gb
  b.genre * (1 / 5) + b.mechanics * (1 / 4) + b.core_loop * (3 / 20) +
    b.visual_style * (3 / 20) + b.difficulty * (1 / 10) + b.economy * (1 / 10) +
    b.name * (1 / 20)

/-- The statuses admitted by `_get_existing_games` (line 136). -/
def comparable_statuses : List String := ["created", "in_progress", "completed", "published"]

/-- Embeds `SimilarityService._get_existing_games` (lines 127-140): the
comparable corpus — games not excluded, with a GDD spec, in an active
status. -/
def get_existing_games (all_games : List Game) (exclude_ids : List Nat) : List Game :=
  all_games.filter (fun g =>
    !(exclude_ids.contains g.id) && g.gdd_spec.isSome && comparable_statuses.contains g.status)

/-- Embeds the `SimilarityResult` payload (similarity_service.py lines
25-47); `breakdown = none` models the default empty dict. -/
structure SimilarityResult where
  is_similar : Bool
  similarity_score : ℚ
  most_similar_game_id : Option Nat
  breakdown : Option SimilarityBreakdown
deriving Repr, DecidableEq

/-- One iteration of the comparison loop of `check_similarity` (lines
102-108): the running pair (max similarity, most similar game) is replaced
only when the new score strictly exceeds the running maximum. -/
def best_match (f : Game → ℚ) (acc : ℚ × Option Game) (g : Game) : ℚ × Option Game :=
  if acc.1 < f g then (f g, some g) else acc

/-- Embeds `SimilarityService.check_similarity` (lines 66-125): the candidate
itself is appended to the exclusion list, the comparable corpus is scanned
tracking the strict running maximum, and the candidate is flagged similar iff
the maximum reaches `SIMILARITY_THRESHOLD` (inclusive `>=`). -/
def check_similarity (all_games : List Game) (new_game : Game)
    (exclude_game_ids : List Nat) : SimilarityResult :=
  let exclude_ids := exclude_game_ids ++ [new_game.id]
  let existing := get_existing_games all_games exclude_ids
  if existing = [] then
    { is_similar := false
      similarity_score := 0
      most_similar_game_id := none
      breakdown := none }
  else
    let best := existing.foldl (best_match (calculate_similarity new_game))
      ((0 : ℚ), (none : Option Game))
    { is_similar := decide (SIMILARITY_THRESHOLD ≤ best.1)
      similarity_score := best.1
      most_similar_game_id := best.2.map (fun g => g.id)
      breakdown := best.2.map (fun g => similarity_breakdown new_game g) }

/-- A well-formed GDD spec used for concrete checks: every sub-dict present
and non-degenerate. -/
def sampleGdd : GddSpec where
  core_loop := some ⟨some "tap", some "level_complete", 90⟩
  asset_style_guide := some ⟨some "pixel_retro", some "dark", some "upbeat", [("bg", "#000000"), ("fg", "#FFFFFF")]⟩
  difficulty_curve := some ⟨["speed", "precision"]⟩
  economy := some ⟨some "coins", 50⟩

/-- Candidate game for concrete checks. -/
def gameA : Game :=
  { id := 1, name := "Star Hopper", genre := "puzzle", status := "in_progress",
    selected_mechanics := ["tap_jump", "combo"], gdd_spec := some sampleGdd }

/-- Existing comparable game identical to `gameA` in all factor inputs. -/
def gameB : Game :=
  { id := 2, name := "Star Hopper", genre := "puzzle", status := "completed",
    selected_mechanics := ["tap_jump", "combo"], gdd_spec := some sampleGdd }

/-- Identical games whose mechanic lists are both empty: all other factors
match perfectly but the Jaccard index of two empty sets is 0. -/
def gameC : Game :=
  { id := 3, name := "Star Hopper", genre := "puzzle", status := "in_progress",
    selected_mechanics := [], gdd_spec := some sampleGdd }

/-- Existing peer identical to `gameC` in all seven factor inputs. -/
def gameD : Game :=
  { id := 4, name := "Star Hopper", genre := "puzzle", status := "completed",
    selected_mechanics := [], gdd_spec := some sampleGdd }

/-! ## Pre-production regeneration loop
(`app/workers/step_executors/step_01_pre_production.py`) -/

/-- A generated GDD candidate: the pieces of a generated spec that the
regeneration loop inspects — its mechanics feed the mechanic exclusion list
and its art style (when present) the style exclusion list (lines 341-344). -/
structure Candidate where
  gdd : GddSpec
  mechanics : List String
  art_style : Option String
deriving Repr, DecidableEq

/-- Outcome of one generation attempt inside the loop body (lines 164-270):
either a validated GDD candidate, a failure returned immediately by the step
(AI required but unavailable, or validation failure after the fix-up pass),
or an exception caught by the loop which moves on to the next attempt
(lines 350-353). -/
inductive GenOutcome where
  | ok (c : Candidate)
  | hardFail (msg : String)
  | raised
deriving Repr, DecidableEq

/-- Loop state of `PreProductionStep.execute`: attempt counter, the two
exclusion lists (lines 139-141), and the last candidate that reached the
similarity check together with its similarity result (lines 156-159,
280-283). -/
structure LoopState where
  attempt : Nat
  excluded_mechanics : List String
  excluded_styles : List String
  last : Option (Candidate × SimilarityResult)
deriving Repr, DecidableEq

/-- Result of `PreProductionStep.execute` restricted to the fields the
regeneration claims are about; `gen_calls` is model instrumentation counting
generator invocations. -/
structure ExecResult where
  success : Bool
  similarity_warning : Bool
  similarity_score : Option ℚ
  generation_attempts : Option Nat
  error : Option String
  gen_calls : Nat
deriving Repr, DecidableEq

/-- The after-loop exit of `PreProductionStep.execute` (lines 355-397): with
no candidate at all the step fails; otherwise the last candidate is accepted
fail-open, flagged with a similarity warning and its final score, reporting
`MAX_REGENERATION_ATTEMPTS` generation attempts. -/
def exhausted_result (st : LoopState) (calls : Nat) : ExecResult :=
  match st.last with
  | none =>
      { success := false, similarity_warning := false, similarity_score := none,
        generation_attempts := none,
        error := some "Failed to generate any valid GDD", gen_calls := calls }
  | some (_, sr) =>
      { success := true, similarity_warning := true,
        similarity_score := some sr.similarity_score,
        generation_attempts := some MAX_REGENERATION_ATTEMPTS,
        error := none, gen_calls := calls }

/-- The `while attempt <= MAX_REGENERATION_ATTEMPTS` loop of
`PreProductionStep.execute` (lines 161-353), with the remaining iteration
budget `MAX_REGENERATION_ATTEMPTS + 1 - attempt` made explicit as fuel.
`gen` is the generation oracle (attempt number and current exclusion lists);
`simOf` is the similarity check applied to a candidate.  An accepted
candidate returns immediately with its score and attempt count (lines
302-318); a too-similar candidate extends both exclusion lists and retries
(lines 320-348). -/
def regen_loop (gen : Nat → List String → List String → GenOutcome)
    (simOf : Candidate → SimilarityResult) :
    Nat → LoopState → Nat → ExecResult
  | 0, st, calls => exhausted_result st calls
  | fuel + 1, st, calls =>
      match gen st.attempt st.excluded_mechanics st.excluded_styles with
      | GenOutcome.hardFail msg =>
          { success := false, similarity_warning := false, similarity_score := none,
            generation_attempts := none, error := some msg, gen_calls := calls + 1 }
      | GenOutcome.raised =>
          regen_loop gen simOf fuel { st with attempt := st.attempt + 1 } (calls + 1)
      | GenOutcome.ok c =>
          let sr := simOf c
          if sr.is_similar then
            regen_loop gen simOf fuel
              { attempt := st.attempt + 1,
                excluded_mechanics := st.excluded_mechanics ++ c.mechanics,
                excluded_styles := st.excluded_styles ++ c.art_style.toList,
                last := some (c, sr) } (calls + 1)
          else
            { success := true, similarity_warning := false,
              similarity_score := some sr.similarity_score,
              generation_attempts := some st.attempt, error := none,
              gen_calls := calls + 1 }

/-- Entry point of the loop in `PreProductionStep.execute`: attempt 1, empty
exclusion lists, no candidate yet (lines 139-159). -/
def pre_production_execute (gen : Nat → List String → List String → GenOutcome)
    (simOf : Candidate → SimilarityResult) : ExecResult :=
  regen_loop gen simOf MAX_REGENERATION_ATTEMPTS ⟨1, [], [], none⟩ 0

/-- Constant candidate for concrete loop runs. -/
def constCandidate : Candidate := ⟨sampleGdd, ["tap_jump"], some "pixel_retro"⟩

/-- Generator that always succeeds with `constCandidate`. -/
def constGen : Nat → List String → List String → GenOutcome :=
  fun _ _ _ => GenOutcome.ok constCandidate

/-- Similarity oracle that flags every candidate as too similar with score 1. -/
def constSimilar : Candidate → SimilarityResult :=
  fun _ => { is_similar := true, similarity_score := 1,
             most_similar_game_id := none, breakdown := none }

/-- Similarity oracle that accepts every candidate with score 0. -/
def constDistinct : Candidate → SimilarityResult :=
  fun _ => { is_similar := false, similarity_score := 0,
             most_similar_game_id := none, breakdown := none }

/-! ## Post-launch scoring and learning weights
(`app/workers/step_executors/step_12_post_launch.py`,
`app/models/learning.py`) -/

/-- The three metric fields read by `_calculate_game_score` (lines 198-200);
each defaults to 0 when missing (`metrics.get(..., 0)`). -/
structure Metrics where
  retention_proxy : ℚ
  completion_rate : ℚ
  ad_opt_in_rate : ℚ
deriving Repr, DecidableEq

/-- Embeds `PostLaunchStep._calculate_game_score` (lines 189-209):
`min(100, max(0, retention*40 + completion*30 + ad_opt_in*30))`. -/
def calculate_game_score (m : Metrics) : ℚ :=
  min 100 (max 0
    (m.retention_proxy * 40 + m.completion_rate * 30 + m.ad_opt_in_rate * 30))

/-- A `learning_weights` row (app/models/learning.py lines 31-57), restricted
to the columns `_update_learning_weights` mutates. -/
structure WeightEntry where
  mechanic_name : String
  genre : String
  weight : ℚ
  sample_count : Nat
deriving Repr, DecidableEq

/-- The tier adjustment of `_update_learning_weights` (lines 258-264):
+0.10 boost for score ≥ 70, neutral for 40 ≤ score < 70, −0.05 penalty
below 40. -/
def weight_adjustment (score : ℚ) : ℚ :=
  if 70 ≤ score then 1 / 10 else if 40 ≤ score then 0 else -(1 / 20)

/-- One weight upsert (lines 267-288 for mechanics, 291-307 for the genre
entry): the row is looked up by `mechanic_name`; an existing row gets the
adjustment clamped to `[low, 2.0]` and its sample count incremented, a
missing row is created with weight `1.0 + adjustment` and sample count 1.
The row list is the session's view of the `learning_weights` table. -/
def update_entry (name genre : String) (adj low : ℚ) :
    List WeightEntry → List WeightEntry
  | [] => [{ mechanic_name := name, genre := genre, weight := 1 + adj,
             sample_count := 1 }]
  | e :: rest =>
      if e.mechanic_name = name then
        { e with weight := max low (min 2 (e.weight + adj)),
                 sample_count := e.sample_count + 1 } :: rest
      else e :: update_entry name genre adj low rest

/-- Embeds `PostLaunchStep._update_learning_weights` (lines 244-309): one
upsert per element of `selected_from_library + [primary]` (empty names
skipped, line 268) with lower bound 0.1, then one upsert for the synthetic
`genre:<genre>` entry with lower bound 0.5. -/
def update_learning_weights (entries : List WeightEntry) (game_genre : String)
    (selected : List String) (primary : String) (score : ℚ) : List WeightEntry :=
  let adj := weight_adjustment score
  let names := (selected ++ [primary]).filter (fun n => n != "")
  let after := names.foldl (fun acc n => update_entry n game_genre adj (1 / 10) acc) entries
  update_entry ("genre:" ++ game_genre) game_genre adj (1 / 2) after

/-- One completed job processed by step 12, as seen by the weight updater. -/
structure PostLaunchRun where
  genre : String
  selected : List String
  primary : String
  score : ℚ
deriving Repr, DecidableEq

/-- The bounds asserted by the claim: every row within [0.1, 2.0] and
`genre:`-marked rows additionally within [0.5, 2.0]. -/
def entry_bounds (e : WeightEntry) : Prop :=
  1 / 10 ≤ e.weight ∧ e.weight ≤ 2 ∧
    (∀ g, e.mechanic_name = "genre:" ++ g → 1 / 2 ≤ e.weight)

/-! ## Worker task layer (`app/workers/tasks.py`,
`WorkflowOrchestrator.should_retry` in `app/core/state_machine.py`,
`GameService` in `app/services/game_service.py`) -/

/-- Embeds `StepResult` (state_machine.py lines 168-178), restricted to the
fields `should_retry` reads. -/
structure StepResult where
  success : Bool
  step_number : Int
  step_name : String
  error_message : Option String
deriving Repr, DecidableEq

/-- `needle` matches at the head of `hay`. -/
def char_list_matches : List Char → List Char → Bool
  | [], _ => true
  | _ :: _, [] => false
  | a :: as, b :: bs => a == b && char_list_matches as bs

/-- `needle` occurs somewhere in the character list. -/
def char_list_occurs (needle : List Char) : List Char → Bool
  | [] => needle.isEmpty
  | c :: rest => char_list_matches needle (c :: rest) || char_list_occurs needle rest

/-- Python substring containment `needle in haystack`. -/
def str_occurs_in (needle haystack : String) : Bool :=
  char_list_occurs needle.data haystack.data

/-- `non_retryable_errors` (state_machine.py lines 449-453). -/
def non_retryable_errors : List String :=
  ["Invalid step number", "Missing required inputs", "No executor registered"]

/-- Embeds `WorkflowOrchestrator.should_retry` (state_machine.py lines
440-460; `max_retries` defaults to 3): no retry for a successful result, an
exhausted retry budget, or an error message containing one of the
non-retryable markers. -/
def should_retry (max_retries : Nat) (result : StepResult) (retry_count : Nat) : Bool :=
  if result.success then false
  else if max_retries ≤ retry_count then false
  else
    match result.error_message with
    | none => true
    | some msg => !(non_retryable_errors.any (fun e => str_occurs_in e msg))

/-- Status and retry counters of one `game_steps` row (app/models/step.py). -/
structure StepRec where
  status : String
  retry_count : Nat
  max_retries : Nat
deriving Repr, DecidableEq

/-- The job state mutated by the task layer: game status, `current_step`,
and the step rows (`steps n` is the row of step `n`; all rows are
pre-materialized by `GameService._initialize_steps`). -/
structure JobState where
  status : String
  current_step : Nat
  steps : Nat → StepRec

/-- Embeds `GameService.update_step_status` (game_service.py lines 129-176):
write the row status; when a step completes and `current_step < step_number`,
advance `current_step`, and at step ≥ 12 mark the whole game completed. -/
def job_update_step_status (j : JobState) (n : Nat) (st : String) : JobState :=
  { status := if st = "completed" ∧ j.current_step < n ∧ 12 ≤ n then "completed"
              else j.status,
    current_step := if st = "completed" ∧ j.current_step < n then n
                    else j.current_step,
    steps := fun m => if m = n then { j.steps n with status := st } else j.steps m }

/-- Result of the `await executor.execute(db, game)` call in `execute_step`
(tasks.py line 240): a result dict with success flag and error, or an
exception caught at line 307. -/
inductive TaskOutcome where
  | result (success : Bool) (error : Option String)
  | raised (msg : String)
deriving Repr, DecidableEq

/-- Embeds the Celery task `execute_step` (tasks.py lines 119-336) for an
existing game with pre-materialized step rows: a cancelled job is skipped; the
step is marked running; a missing executor marks it failed; an executor
result marks it completed or failed; an exception marks it failed.  The
returned list is what the task enqueues after the session closes (line 334):
the next step exactly when the executor succeeded below step 12.  No failure
path re-enqueues anything or touches the job status. -/
def execute_step_task (j : JobState) (n : Nat) (registered : Bool)
    (outcome : TaskOutcome) : JobState × List Nat :=
  if j.status = "cancelled" then (j, [])
  else
    let j1 := job_update_step_status j n "running"
    if registered = false then (job_update_step_status j1 n "failed", [])
    else
      match outcome with
      | TaskOutcome.result true _ =>
          (job_update_step_status j1 n "completed", if n < 12 then [n + 1] else [])
      | TaskOutcome.result false _ => (job_update_step_status j1 n "failed", [])
      | TaskOutcome.raised _ => (job_update_step_status j1 n "failed", [])

/-- Embeds `GameService.retry_step` (game_service.py lines 178-232): without
`force` only a failed step with remaining budget is retried; the step is
reset to pending with its retry count incremented, a failed job goes back to
in_progress, and the step is re-enqueued. -/
def job_retry_step (j : JobState) (n : Nat) (force : Bool) : JobState × List Nat :=
  let s := j.steps n
  if force = false ∧ ¬(s.status = "failed" ∧ s.retry_count < s.max_retries) then
    (j, [])
  else
    let s2 : StepRec := { s with status := "pending", retry_count := s.retry_count + 1 }
    ({ status := if j.status = "failed" then "in_progress" else j.status,
       current_step := j.current_step,
       steps := fun m => if m = n then s2 else j.steps m }, [n])

/-- Marks the outcomes the task layer treats as failures. -/
def outcome_failed : TaskOutcome → Bool
  | TaskOutcome.result true _ => false
  | TaskOutcome.result false _ => true
  | TaskOutcome.raised _ => true

/-- A job in mid-pipeline: steps 1 and 2 completed, the rest pending. -/
def job3 : JobState :=
  { status := "in_progress", current_step := 2,
    steps := fun m => if m ≤ 2 then ⟨"completed", 0, 3⟩ else ⟨"pending", 0, 3⟩ }

/-- A job about to run its final step: steps 1-11 completed. -/
def job12 : JobState :=
  { status := "in_progress", current_step := 11,
    steps := fun m => if m ≤ 11 then ⟨"completed", 0, 3⟩ else ⟨"pending", 0, 3⟩ }

/-- Observable events of one `execute_step` task invocation, in program
order. -/
inductive TaskEvent where
  | markRunning (n : Nat)
  | invokeExecutor (n : Nat)
  | markCompleted (n : Nat)
  | markFailed (n : Nat)
  | commitTx
  | disposeEngine
  | enqueue (n : Nat)
deriving Repr, DecidableEq

/-- The ordered event trace of `execute_step` (tasks.py lines 119-336):
cancelled jobs just commit the skip log and release the engine; otherwise
the step is marked running and the executor invoked; on success the step is
marked completed, the session commits, the engine is disposed, and only then
— and only below step 12 — step `n+1` is enqueued (lines 259-268, 329-334);
on failure or missing executor the step is marked failed and nothing is ever
enqueued. -/
def execute_step_trace (j : JobState) (n : Nat) (registered : Bool)
    (outcome : TaskOutcome) : List TaskEvent :=
  if j.status = "cancelled" then [TaskEvent.commitTx, TaskEvent.disposeEngine]
  else if registered = false then
    [TaskEvent.markRunning n, TaskEvent.markFailed n, TaskEvent.commitTx,
     TaskEvent.disposeEngine]
  else
    match outcome with
    | TaskOutcome.result true _ =>
        [TaskEvent.markRunning n, TaskEvent.invokeExecutor n,
         TaskEvent.markCompleted n, TaskEvent.commitTx, TaskEvent.disposeEngine] ++
          (if n < 12 then [TaskEvent.enqueue (n + 1)] else [])
    | TaskOutcome.result false _ =>
        [TaskEvent.markRunning n, TaskEvent.invokeExecutor n, TaskEvent.markFailed n,
         TaskEvent.commitTx, TaskEvent.disposeEngine]
    | TaskOutcome.raised _ =>
        [TaskEvent.markRunning n, TaskEvent.invokeExecutor n, TaskEvent.markFailed n,
         TaskEvent.commitTx, TaskEvent.disposeEngine]

/-! ## Orchestration discipline (C9): one job driven through the queue -/

/-- Embeds `GameService.cancel_game` (game_service.py lines 234-255):
completed or published jobs cannot be cancelled. -/
def job_cancel (j : JobState) : JobState :=
  if j.status = "completed" ∨ j.status = "published" then j
  else { j with status := "cancelled" }

/-- Whole-system state for one job: its database state plus the at most one
`execute_step` task currently enqueued for it (per job, steps run strictly
sequentially through the queue). -/
structure SysState where
  job : JobState
  queue : Option Nat

/-- The operations that drive one job: a worker consumes the queued task
(with some executor-registration state and executor outcome), a client
retries a step via `GameService.retry_step`, or a client cancels the job. -/
inductive SysAction where
  | runStep (registered : Bool) (outcome : TaskOutcome)
  | retryStep (n : Nat) (force : Bool)
  | cancel
deriving Repr, DecidableEq

/-- One orchestration transition.  `runStep` consumes the queued task and
replaces the queue by whatever the task enqueued after commit; `retryStep`
is modelled while no task is in flight (the per-job sequential discipline);
`cancel` applies the service guard and leaves any queued task in place (it
is discarded by the cancellation check when consumed). -/
def sys_apply (s : SysState) (a : SysAction) : Option SysState :=
  match a with
  | SysAction.runStep registered outcome =>
      match s.queue with
      | none => none
      | some n =>
          let r := execute_step_task s.job n registered outcome
          some { job := r.1, queue := r.2.head? }
  | SysAction.retryStep n force =>
      match s.queue with
      | none =>
          let r := job_retry_step s.job n force
          some { job := r.1, queue := r.2.head? }
      | some _ => none
  | SysAction.cancel => some { s with job := job_cancel s.job }

/-- State after batch start (`process_batch`, tasks.py lines 61-115): all
step rows pending, job in progress, step 1 enqueued. -/
def init_sys : SysState :=
  { job := { status := "in_progress", current_step := 0,
             steps := fun _ => ⟨"pending", 0, 3⟩ },
    queue := some 1 }

/-- States reachable through transitions whose actions satisfy `ok`. -/
inductive ReachableVia (ok : SysAction → Bool) : SysState → Prop
  | init : ReachableVia ok init_sys
  | step {s s2 : SysState} {a : SysAction} : ReachableVia ok s → ok a = true →
      sys_apply s a = some s2 → ReachableVia ok s2

/-- Every action except a forced retry. -/
def not_forced : SysAction → Bool
  | SysAction.retryStep _ true => false
  | _ => true

/-- No restriction on actions. -/
def any_action : SysAction → Bool := fun _ => true

/-- Runs a list of actions from a state, failing when one is not enabled. -/
def run_actions : SysState → List SysAction → Option SysState
  | s, [] => some s
  | s, a :: rest =>
      match sys_apply s a with
      | none => none
      | some s2 => run_actions s2 rest

/-- The action sequence of the C9 counterexample: step 1 succeeds, step 2
fails, then the completed step 1 is force-retried. -/
def forced_retry_actions : List SysAction :=
  [SysAction.runStep true (TaskOutcome.result true none),
   SysAction.runStep true (TaskOutcome.result false (some "boom")),
   SysAction.retryStep 1 true]

/-- The job-progress invariant: `current_step` within 0..12, the completed
rows are exactly `1..current_step`, only step `current_step + 1` can be
failed, rows outside 1..12 stay pending, a queued task targets
`current_step + 1` within 1..12, and a job at step 12 is completed. -/
def sys_inv (s : SysState) : Prop :=
  s.job.current_step ≤ 12 ∧
  (∀ n, 1 ≤ n → n ≤ 12 →
    ((s.job.steps n).status = "completed" ↔ n ≤ s.job.current_step)) ∧
  (∀ n, 1 ≤ n → n ≤ 12 →
    (s.job.steps n).status = "failed" → n = s.job.current_step + 1) ∧
  (∀ n, (n < 1 ∨ 12 < n) → (s.job.steps n).status = "pending") ∧
  (∀ n, s.queue = some n → n = s.job.current_step + 1 ∧ n ≤ 12) ∧
  (s.job.current_step = 12 → s.job.status = "completed")

/-- C1: `can_transition_to` allows a transition iff the target is exactly the
successor of the current step and lies in `1..12`; every denied transition
carries a denial reason. -/
theorem can_transition_iff_successor (c t : Int) (hc0 : 0 ≤ c) (hc12 : c ≤ 12) :
    ((can_transition_to c t).allowed = true ↔ (t = c + 1 ∧ 1 ≤ t ∧ t ≤ 12)) ∧
    ((can_transition_to c t).allowed = false → (can_transition_to c t).reason ≠ none) := by
  unfold can_transition_to total_steps
  split_ifs with ha hb
  · constructor
    · simp only [Bool.false_eq_true, false_iff]
      omega
    · intro _
      simp
  · constructor
    · simp only [Bool.false_eq_true, false_iff]
      intro hcon
      exact hb hcon.1
    · intro _
      simp
  · constructor
    · simp only [true_iff]
      push_neg at ha
      refine ⟨by omega, by omega, by omega⟩
    · intro h
      simp at h

/-- Witness for C1 at the concrete boundary inputs `c = 3`. -/
theorem can_transition_iff_successor_witness :
    ((can_transition_to 3 4).allowed = true ↔ (4 = (3 : Int) + 1 ∧ 1 ≤ (4 : Int) ∧ (4 : Int) ≤ 12)) ∧
    ((can_transition_to 3 4).allowed = false → (can_transition_to 3 4).reason ≠ none) :=
  can_transition_iff_successor 3 4 (by decide) (by decide)

/-! ### Facts about the similarity computation -/

theorem jaccard_similarity_nonneg (la lb : List String) : 0 ≤ jaccard_similarity la lb := by
  unfold jaccard_similarity
  split_ifs <;> positivity

theorem compare_core_loop_nonneg (a b : Option CoreLoop) : 0 ≤ compare_core_loop a b := by
  rcases a with _ | la <;> rcases b with _ | lb <;> simp only [compare_core_loop]
  any_goals norm_num
  split_ifs <;> norm_num

theorem compare_visual_style_nonneg (a b : Option VisualStyle) :
    0 ≤ compare_visual_style a b := by
  rcases a with _ | sa <;> rcases b with _ | sb <;> simp only [compare_visual_style]
  any_goals norm_num
  split_ifs <;> positivity

theorem compare_difficulty_nonneg (a b : Option DifficultyCurve) :
    0 ≤ compare_difficulty a b := by
  rcases a with _ | da <;> rcases b with _ | db <;> simp only [compare_difficulty]
  any_goals norm_num
  exact jaccard_similarity_nonneg _ _

theorem compare_economy_nonneg (a b : Option Economy) : 0 ≤ compare_economy a b := by
  rcases a with _ | ea <;> rcases b with _ | eb <;> simp only [compare_economy]
  any_goals norm_num
  split_ifs <;> norm_num

theorem name_similarity_nonneg (na nb : String) : 0 ≤ name_similarity na nb := by
  simp only [name_similarity]
  split_ifs
  · norm_num
  · exact jaccard_similarity_nonneg _ _

theorem calculate_similarity_nonneg (ga gb : Game) : 0 ≤ calculate_similarity ga gb := by
  unfold calculate_similarity
  have h1 : (0 : ℚ) ≤ (similarity_breakdown ga gb).genre := by
    unfold similarity_breakdown
    split_ifs <;> norm_num
  have h2 := jaccard_similarity_nonneg ga.selected_mechanics gb.selected_mechanics
  have h3 := compare_core_loop_nonneg (ga.gdd_spec.bind GddSpec.core_loop)
    (gb.gdd_spec.bind GddSpec.core_loop)
  have h4 := compare_visual_style_nonneg (ga.gdd_spec.bind GddSpec.asset_style_guide)
    (gb.gdd_spec.bind GddSpec.asset_style_guide)
  have h5 := compare_difficulty_nonneg (ga.gdd_spec.bind GddSpec.difficulty_curve)
    (gb.gdd_spec.bind GddSpec.difficulty_curve)
  have h6 := compare_economy_nonneg (ga.gdd_spec.bind GddSpec.economy)
    (gb.gdd_spec.bind GddSpec.economy)
  have h7 := name_similarity_nonneg ga.name gb.name
  unfold similarity_breakdown at h1 ⊢
  nlinarith [h1, h2, h3, h4, h5, h6, h7]

theorem foldl_best_match_fst_le (f : Game → ℚ) (l : List Game) :
    ∀ p : ℚ × Option Game, p.1 ≤ (l.foldl (best_match f) p).1 := by
  induction l with
  | nil => intro p; simp
  | cons hd tl ih =>
      intro p
      simp only [List.foldl_cons]
      refine le_trans ?_ (ih (best_match f p hd))
      unfold best_match
      split_ifs with h
      · exact le_of_lt h
      · exact le_refl _

theorem foldl_best_match_fst_ge_mem (f : Game → ℚ) (l : List Game) :
    ∀ p : ℚ × Option Game, ∀ g ∈ l, f g ≤ (l.foldl (best_match f) p).1 := by
  induction l with
  | nil => intro p g hg; cases hg
  | cons hd tl ih =>
      intro p g hg
      simp only [List.foldl_cons]
      rcases List.mem_cons.mp hg with h | h
      · subst h
        refine le_trans ?_ (foldl_best_match_fst_le f tl (best_match f p g))
        unfold best_match
        split_ifs with hc
        · exact le_refl _
        · exact le_of_not_lt hc
      · exact ih (best_match f p hd) g h

theorem foldl_best_match_fst_attained (f : Game → ℚ) (l : List Game) :
    ∀ p : ℚ × Option Game,
      (l.foldl (best_match f) p).1 = p.1 ∨ ∃ g ∈ l, (l.foldl (best_match f) p).1 = f g := by
  induction l with
  | nil => intro p; left; simp
  | cons hd tl ih =>
      intro p
      simp only [List.foldl_cons]
      rcases ih (best_match f p hd) with h | ⟨g, hg, hfg⟩
      · by_cases hc : p.1 < f hd
        · right
          refine ⟨hd, List.mem_cons_self hd tl, ?_⟩
          rw [h]
          unfold best_match
          rw [if_pos hc]
        · left
          rw [h]
          unfold best_match
          rw [if_neg hc]
      · right
        exact ⟨g, List.mem_cons_of_mem hd hg, hfg⟩

/-- Shape of the `check_similarity` result when the comparable corpus is
non-empty: the score is the first component of the maximum-tracking fold
and the flag is the inclusive threshold comparison. -/
theorem check_similarity_of_ne_nil (all_games : List Game) (new_game : Game)
    (excl : List Nat)
    (hne : get_existing_games all_games (excl ++ [new_game.id]) ≠ []) :
    check_similarity all_games new_game excl =
      { is_similar := decide (SIMILARITY_THRESHOLD ≤
          ((get_existing_games all_games (excl ++ [new_game.id])).foldl
            (best_match (calculate_similarity new_game)) ((0 : ℚ), none)).1)
        similarity_score := ((get_existing_games all_games (excl ++ [new_game.id])).foldl
            (best_match (calculate_similarity new_game)) ((0 : ℚ), none)).1
        most_similar_game_id := (((get_existing_games all_games (excl ++ [new_game.id])).foldl
            (best_match (calculate_similarity new_game)) ((0 : ℚ), none)).2).map
            (fun g => g.id)
        breakdown := (((get_existing_games all_games (excl ++ [new_game.id])).foldl
            (best_match (calculate_similarity new_game)) ((0 : ℚ), none)).2).map
            (fun g => similarity_breakdown new_game g) } := by
  simp only [check_similarity]
  rw [if_neg hne]

/-- C2: with a non-empty comparable corpus, the reported similarity score is
an upper bound of, and attained by, the per-peer similarities (i.e. it is
their maximum), and the candidate is flagged similar iff that maximum reaches
the inclusive 0.80 threshold. -/
theorem check_similarity_max_and_threshold (all_games : List Game) (new_game : Game)
    (excl : List Nat)
    (hne : get_existing_games all_games (excl ++ [new_game.id]) ≠ []) :
    (∀ g ∈ get_existing_games all_games (excl ++ [new_game.id]),
        calculate_similarity new_game g ≤
          (check_similarity all_games new_game excl).similarity_score) ∧
    (∃ g ∈ get_existing_games all_games (excl ++ [new_game.id]),
        calculate_similarity new_game g =
          (check_similarity all_games new_game excl).similarity_score) ∧
    ((check_similarity all_games new_game excl).is_similar = true ↔
        SIMILARITY_THRESHOLD ≤ (check_similarity all_games new_game excl).similarity_score) := by
  rw [check_similarity_of_ne_nil all_games new_game excl hne]
  dsimp only
  refine ⟨?_, ?_, ?_⟩
  · intro g hg
    exact foldl_best_match_fst_ge_mem _ _ _ g hg
  · rcases foldl_best_match_fst_attained (calculate_similarity new_game)
        (get_existing_games all_games (excl ++ [new_game.id])) ((0 : ℚ), none) with h0 | hga
    · obtain ⟨g, hg⟩ := List.exists_mem_of_ne_nil _ hne
      refine ⟨g, hg, le_antisymm ?_ ?_⟩
      · exact foldl_best_match_fst_ge_mem _ _ _ g hg
      · rw [h0]
        exact calculate_similarity_nonneg new_game g
    · obtain ⟨g, hg, hfg⟩ := hga
      exact ⟨g, hg, hfg.symm⟩
  · simp

/-- Witness for C2: the concrete one-game corpus `[gameB]` against candidate
`gameA`. -/
theorem check_similarity_max_and_threshold_witness :
    (check_similarity [gameB] gameA []).is_similar = true ↔
      SIMILARITY_THRESHOLD ≤ (check_similarity [gameB] gameA []).similarity_score :=
  (check_similarity_max_and_threshold [gameB] gameA [] (by decide)).2.2

/-! ### Self-similarity of identical factor inputs -/

theorem jaccard_similarity_self (l : List String) (h : l ≠ []) :
    jaccard_similarity l l = 1 := by
  unfold jaccard_similarity
  rw [if_neg (by simp [h])]
  dsimp only
  rw [Finset.inter_self, Finset.union_self]
  have hc : l.toFinset.card ≠ 0 := by
    cases l with
    | nil => exact absurd rfl h
    | cons hd tl =>
        have hmem : hd ∈ (hd :: tl).toFinset := by simp
        have hpos := Finset.card_pos.mpr ⟨hd, hmem⟩
        omega
  rw [if_neg hc]
  exact div_self (by exact_mod_cast hc)

theorem assoc_find_mem (p : List (String × String)) (hnd : (p.map Prod.fst).Nodup)
    (kv : String × String) (hm : kv ∈ p) : assoc_find p kv.1 = some kv.2 := by
  induction p with
  | nil => cases hm
  | cons hd tl ih =>
      rw [List.map_cons, List.nodup_cons] at hnd
      rcases List.mem_cons.mp hm with h | h
      · subst h
        unfold assoc_find
        rw [if_pos rfl]
      · unfold assoc_find
        rw [if_neg ?_]
        · exact ih hnd.2 h
        · intro hEq
          exact hnd.1 (by rw [hEq]; exact List.mem_map_of_mem Prod.fst h)

theorem palette_filter_self (p : List (String × String))
    (hnd : (p.map Prod.fst).Nodup) :
    p.filter (fun kv => assoc_find p kv.1 == some kv.2) = p :=
  List.filter_eq_self.mpr (fun kv hm => by
    rw [beq_iff_eq]
    exact assoc_find_mem p hnd kv hm)

theorem compare_core_loop_self (c : CoreLoop) :
    compare_core_loop (some c) (some c) = 1 := by
  simp only [compare_core_loop, sub_self, Int.natAbs_zero]
  norm_num

theorem compare_visual_style_self (v : VisualStyle)
    (h : v.color_palette = [] ∨ (v.color_palette.map Prod.fst).Nodup) :
    compare_visual_style (some v) (some v) = 1 := by
  by_cases hp : v.color_palette = []
  · simp only [compare_visual_style]
    rw [if_neg (by simp [hp])]
    norm_num
  · have hnd : (v.color_palette.map Prod.fst).Nodup := by
      rcases h with h | h
      · exact absurd h hp
      · exact h
    simp only [compare_visual_style]
    rw [if_pos ⟨hp, hp⟩]
    rw [palette_filter_self v.color_palette hnd]
    have hl : 1 ≤ v.color_palette.length := by
      have := List.length_pos.mpr hp
      omega
    rw [Nat.max_self, Nat.max_eq_left hl]
    rw [div_self (by exact_mod_cast (by omega : v.color_palette.length ≠ 0))]
    norm_num

theorem compare_difficulty_self (d : DifficultyCurve) (h : d.factors ≠ []) :
    compare_difficulty (some d) (some d) = 1 := by
  simp only [compare_difficulty]
  exact jaccard_similarity_self _ h

theorem compare_economy_self (e : Economy) (h : e.earn_per_level ≠ 0) :
    compare_economy (some e) (some e) = 1 := by
  have hq : ((e.earn_per_level : ℚ)) ≠ 0 := Int.cast_ne_zero.mpr h
  simp only [compare_economy, min_self, max_self]
  rw [div_self hq]
  rw [if_pos (show e.earn_per_level ≠ 0 ∧ e.earn_per_level ≠ 0 ∧ (4 : ℚ) / 5 ≤ 1 from
    ⟨h, h, by norm_num⟩)]
  norm_num

theorem name_similarity_self (n : String) (h : significant_words n ≠ []) :
    name_similarity n n = 1 := by
  simp only [name_similarity]
  rw [if_neg (by simp [h])]
  exact jaccard_similarity_self _ h

/-- C6 counterexample: `gameC` and `gameD` agree on every one of the seven
factor inputs (same genre, same — empty — mechanic set, same core loop, same
style guide, same difficulty factors, same economy, same name), yet the
weighted similarity is 3/4, not 1.0, and the candidate is accepted, because
`_jaccard_similarity` returns 0 for two empty mechanic sets. -/
theorem identical_empty_mechanics_not_rejected :
    gameC.genre = gameD.genre ∧
    gameC.selected_mechanics = gameD.selected_mechanics ∧
    gameC.gdd_spec = gameD.gdd_spec ∧
    gameC.name = gameD.name ∧
    calculate_similarity gameC gameD = 3 / 4 ∧
    (check_similarity [gameD] gameC []).is_similar = false := by
  have hs : calculate_similarity gameC gameD = 3 / 4 := by
    simp [calculate_similarity, similarity_breakdown, gameC, gameD, sampleGdd,
      compare_core_loop, compare_visual_style, compare_difficulty, compare_economy,
      jaccard_similarity, name_similarity, significant_words, split_words, lower_str,
      split_words_aux, is_space, common_words, assoc_find]
    norm_num
  refine ⟨rfl, rfl, rfl, rfl, hs, ?_⟩
  have hex : get_existing_games [gameD] ([] ++ [gameC.id]) = [gameD] := by decide
  simp only [check_similarity, hex, List.foldl_cons, List.foldl_nil, best_match, hs]
  norm_num [SIMILARITY_THRESHOLD]

/-- C6 amended: two games identical across all seven factors score 1.0 and
are rejected, provided the shared factor data is non-degenerate: non-empty
mechanic set, present core loop, present style guide (with a well-formed
palette), non-empty difficulty-factor set, economy with a non-zero earn rate,
and a name with at least one significant word; the peer must be in the
comparable corpus. -/
theorem identical_nondegenerate_specs_rejected
    (all_games : List Game) (excl : List Nat) (ga gb : Game)
    (hgenre : ga.genre = gb.genre)
    (hmech : ga.selected_mechanics = gb.selected_mechanics)
    (hmne : ga.selected_mechanics ≠ [])
    (hgdd : ga.gdd_spec = gb.gdd_spec)
    (hname : ga.name = gb.name)
    (hloop : (ga.gdd_spec.bind GddSpec.core_loop).isSome = true)
    (hstyle : ∃ v, ga.gdd_spec.bind GddSpec.asset_style_guide = some v ∧
        (v.color_palette = [] ∨ (v.color_palette.map Prod.fst).Nodup))
    (hdiff : ∃ d, ga.gdd_spec.bind GddSpec.difficulty_curve = some d ∧ d.factors ≠ [])
    (hecon : ∃ e, ga.gdd_spec.bind GddSpec.economy = some e ∧ e.earn_per_level ≠ 0)
    (hwords : significant_words ga.name ≠ [])
    (hin : gb ∈ get_existing_games all_games (excl ++ [ga.id])) :
    calculate_similarity ga gb = 1 ∧
      (check_similarity all_games ga excl).is_similar = true := by
  obtain ⟨c, hc⟩ := Option.isSome_iff_exists.mp hloop
  obtain ⟨v, hv, hvp⟩ := hstyle
  obtain ⟨d, hd, hdf⟩ := hdiff
  obtain ⟨e, he, hee⟩ := hecon
  have hscore : calculate_similarity ga gb = 1 := by
    unfold calculate_similarity similarity_breakdown
    rw [← hgdd, ← hmech, ← hname, hc, hv, hd, he]
    rw [if_pos hgenre]
    rw [jaccard_similarity_self _ hmne, compare_core_loop_self,
      compare_visual_style_self v hvp, compare_difficulty_self d hdf,
      compare_economy_self e hee, name_similarity_self _ hwords]
    norm_num
  refine ⟨hscore, ?_⟩
  have hne : get_existing_games all_games (excl ++ [ga.id]) ≠ [] :=
    List.ne_nil_of_mem hin
  rw [check_similarity_of_ne_nil all_games ga excl hne]
  dsimp only
  simp only [decide_eq_true_eq]
  have hb := foldl_best_match_fst_ge_mem (calculate_similarity ga)
    (get_existing_games all_games (excl ++ [ga.id])) ((0 : ℚ), none) gb hin
  rw [hscore] at hb
  unfold SIMILARITY_THRESHOLD
  linarith

/-- Witness for the amended C6 at the concrete identical pair
`gameA`/`gameB`. -/
theorem identical_nondegenerate_specs_rejected_witness :
    calculate_similarity gameA gameB = 1 ∧
      (check_similarity [gameB] gameA []).is_similar = true :=
  identical_nondegenerate_specs_rejected [gameB] [] gameA gameB rfl rfl (by decide)
    rfl rfl (by decide) ⟨_, rfl, Or.inr (by decide)⟩ ⟨_, rfl, by decide⟩
    ⟨_, rfl, by decide⟩ (by decide) (by decide)

/-! ### Facts about the regeneration loop -/

theorem regen_loop_gen_calls_le (gen : Nat → List String → List String → GenOutcome)
    (simOf : Candidate → SimilarityResult) :
    ∀ fuel st calls, (regen_loop gen simOf fuel st calls).gen_calls ≤ calls + fuel := by
  intro fuel
  induction fuel with
  | zero =>
      intro st calls
      unfold regen_loop exhausted_result
      cases st.last with
      | none => simp
      | some pr => simp
  | succ n ih =>
      intro st calls
      unfold regen_loop
      cases gen st.attempt st.excluded_mechanics st.excluded_styles with
      | hardFail msg => simp
      | raised =>
          refine le_trans (ih _ (calls + 1)) ?_
          omega
      | ok c =>
          dsimp only
          split_ifs with hsim
          · refine le_trans (ih _ (calls + 1)) ?_
            omega
          · simp

theorem regen_loop_all_similar (gen : Nat → List String → List String → GenOutcome)
    (simOf : Candidate → SimilarityResult)
    (hok : ∀ a em es, ∃ c, gen a em es = GenOutcome.ok c)
    (hsim : ∀ c, (simOf c).is_similar = true) :
    ∀ fuel st calls, 1 ≤ fuel →
      ∃ c, regen_loop gen simOf fuel st calls =
        { success := true, similarity_warning := true,
          similarity_score := some ((simOf c).similarity_score),
          generation_attempts := some MAX_REGENERATION_ATTEMPTS,
          error := none, gen_calls := calls + fuel } := by
  intro fuel
  induction fuel with
  | zero => intro st calls h; omega
  | succ n ih =>
      intro st calls _
      obtain ⟨c, hc⟩ := hok st.attempt st.excluded_mechanics st.excluded_styles
      by_cases hn : n = 0
      · subst hn
        refine ⟨c, ?_⟩
        unfold regen_loop
        rw [hc]
        dsimp only
        rw [if_pos (hsim c)]
        unfold regen_loop exhausted_result
        rfl
      · have h1 : 1 ≤ n := by omega
        obtain ⟨c2, hc2⟩ := ih
          { attempt := st.attempt + 1,
            excluded_mechanics := st.excluded_mechanics ++ c.mechanics,
            excluded_styles := st.excluded_styles ++ c.art_style.toList,
            last := some (c, simOf c) } (calls + 1) h1
        refine ⟨c2, ?_⟩
        unfold regen_loop
        rw [hc]
        dsimp only
        rw [if_pos (hsim c)]
        rw [hc2]
        have harith : calls + 1 + n = calls + (n + 1) := by omega
        rw [harith]

/-- C3: the regeneration loop makes at most `MAX_REGENERATION_ATTEMPTS = 5`
generation attempts; and when every attempt yields a candidate and every
candidate is flagged too similar, the step nevertheless returns success
(fail-open): the last candidate is accepted, flagged with a similarity
warning and carrying its final similarity score, after exactly 5 attempts. -/
theorem regeneration_bounded_and_fail_open :
    (∀ gen simOf,
      (pre_production_execute gen simOf).gen_calls ≤ MAX_REGENERATION_ATTEMPTS) ∧
    (∀ gen simOf, (∀ a em es, ∃ c, gen a em es = GenOutcome.ok c) →
      (∀ c, (simOf c).is_similar = true) →
      (pre_production_execute gen simOf).success = true ∧
      (pre_production_execute gen simOf).similarity_warning = true ∧
      (pre_production_execute gen simOf).generation_attempts =
        some MAX_REGENERATION_ATTEMPTS ∧
      (pre_production_execute gen simOf).gen_calls = MAX_REGENERATION_ATTEMPTS ∧
      ∃ c, (simOf c).is_similar = true ∧
        (pre_production_execute gen simOf).similarity_score =
          some ((simOf c).similarity_score)) := by
  constructor
  · intro gen simOf
    have h := regen_loop_gen_calls_le gen simOf MAX_REGENERATION_ATTEMPTS ⟨1, [], [], none⟩ 0
    simpa [pre_production_execute] using h
  · intro gen simOf hok hsim
    obtain ⟨c, hc⟩ := regen_loop_all_similar gen simOf hok hsim
      MAX_REGENERATION_ATTEMPTS ⟨1, [], [], none⟩ 0 (by norm_num [MAX_REGENERATION_ATTEMPTS])
    unfold pre_production_execute
    rw [hc]
    exact ⟨rfl, rfl, rfl, rfl, c, hsim c, rfl⟩

/-- Witness for C3: the always-similar oracle exhausts all 5 attempts and
still succeeds with the warning flag. -/
theorem regeneration_bounded_and_fail_open_witness :
    (pre_production_execute constGen constSimilar).success = true ∧
    (pre_production_execute constGen constSimilar).similarity_warning = true ∧
    (pre_production_execute constGen constSimilar).generation_attempts =
      some MAX_REGENERATION_ATTEMPTS ∧
    (pre_production_execute constGen constSimilar).gen_calls =
      MAX_REGENERATION_ATTEMPTS ∧
    ∃ c, (constSimilar c).is_similar = true ∧
      (pre_production_execute constGen constSimilar).similarity_score =
        some ((constSimilar c).similarity_score) :=
  regeneration_bounded_and_fail_open.2 constGen constSimilar
    (fun _ _ _ => ⟨constCandidate, rfl⟩) (fun _ => rfl)

/-- `check_similarity` with an empty comparable corpus (lines 87-95). -/
theorem check_similarity_empty (all_games : List Game) (new_game : Game)
    (excl : List Nat)
    (h : get_existing_games all_games (excl ++ [new_game.id]) = []) :
    check_similarity all_games new_game excl =
      { is_similar := false, similarity_score := 0,
        most_similar_game_id := none, breakdown := none } := by
  simp only [check_similarity]
  rw [if_pos h]

/-- C10: when every other game is excluded, lacks a GDD spec, or is in a
failed/cancelled status the corpus is empty; `check_similarity` then returns
not-similar with score 0, no most-similar peer, and no factor breakdown, so
the regeneration loop accepts the first candidate on attempt 1 with no
similarity warning. -/
theorem empty_corpus_first_candidate_accepted (all_games : List Game)
    (excl : List Nat) (toGame : Candidate → Game)
    (gen : Nat → List String → List String → GenOutcome) (c : Candidate)
    (hempty : ∀ cand, get_existing_games all_games (excl ++ [(toGame cand).id]) = [])
    (hgen : gen 1 [] [] = GenOutcome.ok c) :
    check_similarity all_games (toGame c) excl =
      { is_similar := false, similarity_score := 0,
        most_similar_game_id := none, breakdown := none } ∧
    (pre_production_execute gen
        (fun cand => check_similarity all_games (toGame cand) excl)).success = true ∧
    (pre_production_execute gen
        (fun cand => check_similarity all_games (toGame cand) excl)).similarity_warning
      = false ∧
    (pre_production_execute gen
        (fun cand => check_similarity all_games (toGame cand) excl)).generation_attempts
      = some 1 ∧
    (pre_production_execute gen
        (fun cand => check_similarity all_games (toGame cand) excl)).gen_calls = 1 := by
  have hres : ∀ cand, check_similarity all_games (toGame cand) excl =
      { is_similar := false, similarity_score := 0,
        most_similar_game_id := none, breakdown := none } :=
    fun cand => check_similarity_empty all_games (toGame cand) excl (hempty cand)
  refine ⟨hres c, ?_⟩
  unfold pre_production_execute
  rw [show MAX_REGENERATION_ATTEMPTS = 4 + 1 from rfl]
  unfold regen_loop
  rw [hgen]
  dsimp only
  rw [hres c]
  norm_num

/-- Witness for C10: empty corpus, constant generator. -/
theorem empty_corpus_first_candidate_accepted_witness :
    check_similarity [] gameA [] =
      { is_similar := false, similarity_score := 0,
        most_similar_game_id := none, breakdown := none } ∧
    (pre_production_execute constGen
        (fun _ => check_similarity [] gameA [])).success = true ∧
    (pre_production_execute constGen
        (fun _ => check_similarity [] gameA [])).similarity_warning = false ∧
    (pre_production_execute constGen
        (fun _ => check_similarity [] gameA [])).generation_attempts = some 1 ∧
    (pre_production_execute constGen
        (fun _ => check_similarity [] gameA [])).gen_calls = 1 :=
  empty_corpus_first_candidate_accepted [] [] (fun _ => gameA) constGen constCandidate
    (fun _ => rfl) rfl

/-! ### Facts about scoring and weight updates -/

/-- C7: the game score equals `40·retention + 30·completion + 30·ad_opt_in`
clamped to [0, 100]: it is the raw weighted sum when that lies in the
interval, saturates at the violated bound otherwise, and lies in [0, 100]
for every metrics input, including rates exceeding 1. -/
theorem game_score_clamped (m : Metrics) :
    (0 ≤ calculate_game_score m ∧ calculate_game_score m ≤ 100) ∧
    (0 ≤ m.retention_proxy * 40 + m.completion_rate * 30 + m.ad_opt_in_rate * 30 →
      m.retention_proxy * 40 + m.completion_rate * 30 + m.ad_opt_in_rate * 30 ≤ 100 →
      calculate_game_score m =
        m.retention_proxy * 40 + m.completion_rate * 30 + m.ad_opt_in_rate * 30) ∧
    (m.retention_proxy * 40 + m.completion_rate * 30 + m.ad_opt_in_rate * 30 < 0 →
      calculate_game_score m = 0) ∧
    (100 < m.retention_proxy * 40 + m.completion_rate * 30 + m.ad_opt_in_rate * 30 →
      calculate_game_score m = 100) := by
  unfold calculate_game_score
  refine ⟨⟨?_, ?_⟩, ?_, ?_, ?_⟩
  · exact le_min (by norm_num) (le_max_left 0 _)
  · exact min_le_left _ _
  · intro h0 h100
    rw [max_eq_right h0, min_eq_right h100]
  · intro h
    rw [max_eq_left (le_of_lt h), min_eq_right (by norm_num)]
  · intro h
    rw [max_eq_right (le_trans (by norm_num) (le_of_lt h)), min_eq_left (le_of_lt h)]

/-- Witness for C7 at metrics (2, 1, 1): the raw sum 140 saturates at 100. -/
theorem game_score_clamped_witness :
    (0 ≤ calculate_game_score ⟨2, 1, 1⟩ ∧ calculate_game_score ⟨2, 1, 1⟩ ≤ 100) ∧
    calculate_game_score ⟨2, 1, 1⟩ = 100 :=
  ⟨(game_score_clamped ⟨2, 1, 1⟩).1, (game_score_clamped ⟨2, 1, 1⟩).2.2.2 (by norm_num)⟩

theorem weight_adjustment_cases (score : ℚ) :
    weight_adjustment score = 1 / 10 ∨ weight_adjustment score = 0 ∨
      weight_adjustment score = -(1 / 20) := by
  unfold weight_adjustment
  split_ifs <;> simp

theorem update_entry_preserves_bounds (name genre : String) (adj low : ℚ)
    (hl1 : 1 / 10 ≤ low) (hl2 : low ≤ 2)
    (hn1 : 1 / 10 ≤ 1 + adj) (hn2 : 1 + adj ≤ 2)
    (hgen : (∀ g, name ≠ "genre:" ++ g) ∨ (1 / 2 ≤ low ∧ 1 / 2 ≤ 1 + adj)) :
    ∀ l : List WeightEntry, (∀ e ∈ l, entry_bounds e) →
      ∀ e ∈ update_entry name genre adj low l, entry_bounds e := by
  intro l
  induction l with
  | nil =>
      intro _ e he
      unfold update_entry at he
      rcases List.mem_singleton.mp he with rfl
      refine ⟨hn1, hn2, ?_⟩
      intro g hg
      rcases hgen with hgen | hgen
      · exact absurd hg (hgen g)
      · exact hgen.2
  | cons hd tl ih =>
      intro hinv e he
      unfold update_entry at he
      split_ifs at he with hname
      · rcases List.mem_cons.mp he with rfl | he
        · have hb := hinv hd (List.mem_cons_self hd tl)
          refine ⟨le_trans hl1 (le_max_left _ _), ?_, ?_⟩
          · exact max_le hl2 (min_le_left _ _)
          · intro g hg
            rcases hgen with hgen | hgen
            · exact absurd (by rw [← hname]; exact hg) (hgen g)
            · exact le_trans hgen.1 (le_max_left _ _)
        · exact hinv e (List.mem_cons_of_mem hd he)
      · rcases List.mem_cons.mp he with rfl | he
        · exact hinv e (List.mem_cons_self e tl)
        · exact ih (fun x hx => hinv x (List.mem_cons_of_mem hd hx)) e he

theorem foldl_update_entry_preserves_bounds (game_genre : String) (adj : ℚ)
    (hadj1 : 1 / 10 ≤ 1 + adj) (hadj2 : 1 + adj ≤ 2) :
    ∀ (names : List String) (entries : List WeightEntry),
      (∀ n ∈ names, ∀ g, n ≠ "genre:" ++ g) →
      (∀ e ∈ entries, entry_bounds e) →
      ∀ e ∈ names.foldl (fun acc n => update_entry n game_genre adj (1 / 10) acc) entries,
        entry_bounds e := by
  intro names
  induction names with
  | nil =>
      intro entries _ hinv
      simpa using hinv
  | cons hd tl ih =>
      intro entries hnames hinv
      simp only [List.foldl_cons]
      refine ih _ (fun n hn => hnames n (List.mem_cons_of_mem hd hn)) ?_
      exact update_entry_preserves_bounds _ _ _ _ (le_refl _) (by norm_num)
        hadj1 hadj2 (Or.inl (hnames hd (List.mem_cons_self hd tl))) entries hinv

theorem update_learning_weights_preserves_bounds (entries : List WeightEntry)
    (game_genre : String) (selected : List String) (primary : String) (score : ℚ)
    (hsel : ∀ n ∈ selected ++ [primary], ∀ g, n ≠ "genre:" ++ g)
    (hinv : ∀ e ∈ entries, entry_bounds e) :
    ∀ e ∈ update_learning_weights entries game_genre selected primary score,
      entry_bounds e := by
  have hadj1 : 1 / 10 ≤ 1 + weight_adjustment score := by
    rcases weight_adjustment_cases score with h | h | h <;> rw [h] <;> norm_num
  have hadj2 : 1 + weight_adjustment score ≤ 2 := by
    rcases weight_adjustment_cases score with h | h | h <;> rw [h] <;> norm_num
  have hadj3 : 1 / 2 ≤ 1 + weight_adjustment score := by
    rcases weight_adjustment_cases score with h | h | h <;> rw [h] <;> norm_num
  unfold update_learning_weights
  refine update_entry_preserves_bounds _ _ _ _ (by norm_num) (by norm_num)
    hadj1 hadj2 (Or.inr ⟨le_refl _, hadj3⟩) _ ?_
  refine foldl_update_entry_preserves_bounds game_genre (weight_adjustment score)
    hadj1 hadj2 _ entries ?_ hinv
  intro n hn
  exact hsel n (List.mem_of_mem_filter hn)

/-- C5 counterexample: a game whose primary mechanic also appears in its
`selected_from_library` list adjusts that mechanic twice in one run: with
prior weight 1.0, sample count 0, and score 80, the stored row becomes
weight 1.2 with sample count 2 — not the claimed single +0.10 adjustment
with one sample-count increment. -/
theorem primary_in_library_double_adjusted :
    update_learning_weights [⟨"tap_jump", "puzzle", 1, 0⟩] "puzzle"
        ["tap_jump"] "tap_jump" 80 =
      [⟨"tap_jump", "puzzle", 6 / 5, 2⟩, ⟨"genre:puzzle", "puzzle", 11 / 10, 1⟩] ∧
    (6 : ℚ) / 5 ≠ 1 + 1 / 10 := by
  constructor
  · have hadj : weight_adjustment 80 = 1 / 10 := by
      unfold weight_adjustment
      rw [if_pos (by norm_num)]
    have happ : ("genre:" ++ "puzzle" : String) = "genre:puzzle" := rfl
    simp only [update_learning_weights, hadj, happ]
    norm_num [update_entry, max_def, min_def]
    decide
  · norm_num

/-- C5 amended: step 12 performs one clamped adjustment and one sample-count
increment per occurrence of a mechanic in `selected_from_library + [primary]`
(so a primary mechanic also listed in the library is adjusted twice per run),
plus one for the synthetic genre entry; and over arbitrarily many post-launch
runs every stored weight stays within [0.1, 2.0], genre entries within
[0.5, 2.0]. -/
theorem learning_weights_per_occurrence_and_bounded :
    (∀ (name genre : String) (adj low : ℚ) (l1 l2 : List WeightEntry)
        (e : WeightEntry),
      (∀ x ∈ l1, x.mechanic_name ≠ name) → e.mechanic_name = name →
      update_entry name genre adj low (l1 ++ e :: l2) =
        l1 ++ { e with weight := max low (min 2 (e.weight + adj)),
                       sample_count := e.sample_count + 1 } :: l2) ∧
    (∀ (runs : List PostLaunchRun) (init : List WeightEntry),
      (∀ e ∈ init, entry_bounds e) →
      (∀ r ∈ runs, ∀ n ∈ r.selected ++ [r.primary], ∀ g, n ≠ "genre:" ++ g) →
      ∀ e ∈ runs.foldl
          (fun acc r => update_learning_weights acc r.genre r.selected r.primary r.score)
          init,
        entry_bounds e) := by
  constructor
  · intro name genre adj low l1 l2 e hmiss hname
    induction l1 with
    | nil =>
        simp only [List.nil_append]
        unfold update_entry
        rw [if_pos hname]
    | cons hd tl ih =>
        simp only [List.cons_append]
        unfold update_entry
        rw [if_neg (hmiss hd (List.mem_cons_self hd tl))]
        rw [ih (fun x hx => hmiss x (List.mem_cons_of_mem hd hx))]
  · intro runs
    induction runs with
    | nil =>
        intro init hinv _
        simpa using hinv
    | cons r tl ih =>
        intro init hinv hruns
        simp only [List.foldl_cons]
        refine ih _ ?_ ?_
        · exact update_learning_weights_preserves_bounds init r.genre r.selected
            r.primary r.score (hruns r (List.mem_cons_self r tl)) hinv
        · intro r2 hr2
          exact hruns r2 (List.mem_cons_of_mem r hr2)

/-- Witness for the amended C5: a single-row table hit by one matching
upsert. -/
theorem learning_weights_per_occurrence_and_bounded_witness :
    update_entry "tap_jump" "puzzle" (1 / 10) (1 / 10)
        ([] ++ (⟨"tap_jump", "puzzle", 1, 0⟩ : WeightEntry) :: []) =
      [] ++ ({ mechanic_name := "tap_jump", genre := "puzzle",
               weight := max (1 / 10) (min 2 (1 + 1 / 10)),
               sample_count := 0 + 1 } : WeightEntry) :: [] :=
  learning_weights_per_occurrence_and_bounded.1 "tap_jump" "puzzle" (1 / 10) (1 / 10)
    [] [] ⟨"tap_jump", "puzzle", 1, 0⟩ (fun x hx => absurd hx (List.not_mem_nil x)) rfl

theorem job_update_step_status_current (j : JobState) (n : Nat) (st : String) :
    (job_update_step_status j n st).current_step =
      if st = "completed" ∧ j.current_step < n then n else j.current_step := rfl

theorem job_update_step_status_steps (j : JobState) (n : Nat) (st : String) (m : Nat) :
    (job_update_step_status j n st).steps m =
      if m = n then { j.steps n with status := st } else j.steps m := rfl

theorem job_update_step_status_status (j : JobState) (n : Nat) (st : String) :
    (job_update_step_status j n st).status =
      if st = "completed" ∧ j.current_step < n ∧ 12 ≤ n then "completed"
      else j.status := rfl

theorem job_update_step_status_mono (j : JobState) (n : Nat) (st : String) :
    j.current_step ≤ (job_update_step_status j n st).current_step := by
  rw [job_update_step_status_current]
  split_ifs with h
  · exact le_of_lt h.2
  · exact le_refl _

/-! ### Facts about retries (C4) -/

/-- C4 counterexample: a transient executor failure ("Connection timeout" at
retry count 0 — classified retryable by `should_retry`) is not retried at
all: the task enqueues nothing, marks the step failed, and leaves the job
status at in_progress instead of transitioning it to FAILED. -/
theorem transient_failure_not_retried :
    should_retry 3 ⟨false, 3, "architecture", some "Connection timeout"⟩ 0 = true ∧
    (execute_step_task job3 3 true
      (TaskOutcome.result false (some "Connection timeout"))).2 = [] ∧
    ((execute_step_task job3 3 true
      (TaskOutcome.result false (some "Connection timeout"))).1).status = "in_progress" ∧
    ((execute_step_task job3 3 true
      (TaskOutcome.result false (some "Connection timeout"))).1).steps 3 =
      ⟨"failed", 0, 3⟩ := by
  refine ⟨by decide, by decide, by decide, by decide⟩

/-- C4 amended: `should_retry` classifies a failure as retryable iff the
retry budget remains and the error message carries none of the non-retryable
markers (invalid step number / missing inputs / no executor); but the worker
task never consults this policy: on any executor failure the step is marked
failed immediately, nothing is re-enqueued, and the job status is left
unchanged rather than set to FAILED — re-execution happens only through the
manual `retry_step`, which resets a failed step to pending, increments its
retry count, and re-enqueues it. -/
theorem retry_policy_never_applied :
    (∀ (res : StepResult) (rc : Nat),
      should_retry 3 res rc = true ↔
        (res.success = false ∧ rc < 3 ∧
          ∀ msg, res.error_message = some msg →
            ∀ e ∈ non_retryable_errors, str_occurs_in e msg = false)) ∧
    (∀ (j : JobState) (n : Nat) (outcome : TaskOutcome),
      j.status ≠ "cancelled" → outcome_failed outcome = true →
      (execute_step_task j n true outcome).2 = [] ∧
      ((execute_step_task j n true outcome).1).status = j.status ∧
      (((execute_step_task j n true outcome).1).steps n).status = "failed") ∧
    (∀ (j : JobState) (n : Nat),
      (j.steps n).status = "failed" →
      (j.steps n).retry_count < (j.steps n).max_retries →
      (job_retry_step j n false).2 = [n] ∧
      (((job_retry_step j n false).1).steps n).status = "pending" ∧
      (((job_retry_step j n false).1).steps n).retry_count =
        (j.steps n).retry_count + 1) := by
  refine ⟨?_, ?_, ?_⟩
  · intro res rc
    unfold should_retry
    split_ifs with hsucc hrc
    · simp [hsucc]
    · constructor
      · intro h
        cases h
      · rintro ⟨-, hlt, -⟩
        omega
    · cases hmsg : res.error_message with
      | none =>
          simp only [true_iff]
          refine ⟨by simpa using hsucc, by omega, ?_⟩
          intro msg hcon
          cases hcon
      | some msg =>
          rw [Bool.not_eq_true', List.any_eq_false]
          constructor
          · intro h
            refine ⟨by simpa using hsucc, by omega, ?_⟩
            intro m hm e he
            cases hm
            simpa using h e he
          · rintro ⟨-, -, hmark⟩
            intro e he
            simpa using hmark msg rfl e he
  · intro j n outcome hcanc hfail
    unfold execute_step_task
    rw [if_neg hcanc]
    cases outcome with
    | result success err =>
        cases success with
        | true => cases hfail
        | false =>
            refine ⟨rfl, ?_, ?_⟩ <;>
              simp [job_update_step_status]
    | raised msg =>
        refine ⟨rfl, ?_, ?_⟩ <;>
          simp [job_update_step_status]
  · intro j n hst hrc
    unfold job_retry_step
    rw [if_neg (by simp [hst, hrc])]
    exact ⟨rfl, by simp, by simp⟩

/-- Witness for the amended C4 at the concrete failed-step job. -/
theorem retry_policy_never_applied_witness :
    (execute_step_task job3 3 true (TaskOutcome.raised "boom")).2 = [] ∧
    ((execute_step_task job3 3 true (TaskOutcome.raised "boom")).1).status =
      job3.status ∧
    (((execute_step_task job3 3 true (TaskOutcome.raised "boom")).1).steps 3).status =
      "failed" :=
  retry_policy_never_applied.2.1 job3 3 (TaskOutcome.raised "boom") (by decide) rfl

/-! ### The task trace (C8) -/

/-- C8: an `enqueue` event appears in a task trace only for step `n+1`, only
when the executor succeeded at a step below 12, and only as the last event —
strictly after the completion write, the transaction commit, and the engine
disposal; and a successful step 12 enqueues nothing and leaves the job
COMPLETED. -/
theorem enqueue_only_after_commit (j : JobState) (n : Nat) (registered : Bool)
    (outcome : TaskOutcome) :
    (∀ m, TaskEvent.enqueue m ∈ execute_step_trace j n registered outcome →
      m = n + 1 ∧ n < 12 ∧ registered = true ∧ j.status ≠ "cancelled" ∧
      (∃ err, outcome = TaskOutcome.result true err) ∧
      (∃ pre, execute_step_trace j n registered outcome =
          pre ++ [TaskEvent.enqueue (n + 1)] ∧
        TaskEvent.markCompleted n ∈ pre ∧ TaskEvent.commitTx ∈ pre ∧
        TaskEvent.disposeEngine ∈ pre)) ∧
    (j.status ≠ "cancelled" → n = 12 → j.current_step < 12 →
      ∀ err, outcome = TaskOutcome.result true err →
        ((execute_step_task j n true outcome).1).status = "completed" ∧
        (execute_step_task j n true outcome).2 = []) := by
  constructor
  · intro m hm
    by_cases hcanc : j.status = "cancelled"
    · unfold execute_step_trace at hm
      rw [if_pos hcanc] at hm
      simp at hm
    · by_cases hreg : registered = false
      · unfold execute_step_trace at hm
        rw [if_neg hcanc, if_pos hreg] at hm
        simp at hm
      · cases outcome with
        | result success err =>
            cases success with
            | true =>
                by_cases hn : n < 12
                · unfold execute_step_trace at hm
                  rw [if_neg hcanc, if_neg hreg] at hm
                  dsimp only at hm
                  rw [if_pos hn] at hm
                  simp at hm
                  subst hm
                  refine ⟨rfl, hn, by simpa using hreg, hcanc, ⟨err, rfl⟩, ?_⟩
                  refine ⟨[TaskEvent.markRunning n, TaskEvent.invokeExecutor n,
                    TaskEvent.markCompleted n, TaskEvent.commitTx,
                    TaskEvent.disposeEngine], ?_, by simp, by simp, by simp⟩
                  unfold execute_step_trace
                  rw [if_neg hcanc, if_neg hreg]
                  dsimp only
                  rw [if_pos hn]
                · unfold execute_step_trace at hm
                  rw [if_neg hcanc, if_neg hreg] at hm
                  dsimp only at hm
                  rw [if_neg hn] at hm
                  simp at hm
            | false =>
                unfold execute_step_trace at hm
                rw [if_neg hcanc, if_neg hreg] at hm
                simp at hm
        | raised msg =>
            unfold execute_step_trace at hm
            rw [if_neg hcanc, if_neg hreg] at hm
            simp at hm
  · intro hcanc hn hcur err houtcome
    subst hn
    subst houtcome
    unfold execute_step_task
    rw [if_neg hcanc]
    simp only [Bool.true_eq_false, if_neg]
    constructor
    · simp [job_update_step_status_status, job_update_step_status_current, hcur]
    · simp

/-- Witness for C8 at the concrete final-step job. -/
theorem enqueue_only_after_commit_witness :
    ((execute_step_task job12 12 true (TaskOutcome.result true none)).1).status =
      "completed" ∧
    (execute_step_task job12 12 true (TaskOutcome.result true none)).2 = [] :=
  (enqueue_only_after_commit job12 12 true (TaskOutcome.result true none)).2
    (by decide) rfl (by decide) none rfl

/-! ### Facts about the orchestration discipline -/

theorem run_actions_reachable (ok : SysAction → Bool) :
    ∀ (acts : List SysAction) (s s2 : SysState), (∀ a ∈ acts, ok a = true) →
      ReachableVia ok s → run_actions s acts = some s2 → ReachableVia ok s2 := by
  intro acts
  induction acts with
  | nil =>
      intro s s2 _ hr h
      unfold run_actions at h
      cases h
      exact hr
  | cons a rest ih =>
      intro s s2 hok hr h
      unfold run_actions at h
      cases hap : sys_apply s a with
      | none =>
          rw [hap] at h
          cases h
      | some smid =>
          rw [hap] at h
          exact ih smid s2 (fun x hx => hok x (List.mem_cons_of_mem a hx))
            (ReachableVia.step hr (hok a (List.mem_cons_self a rest)) hap) h

theorem sys_apply_current_step_mono (s : SysState) (a : SysAction) (s2 : SysState)
    (happ : sys_apply s a = some s2) :
    s.job.current_step ≤ s2.job.current_step := by
  cases a with
  | runStep registered outcome =>
      unfold sys_apply at happ
      cases hq : s.queue with
      | none =>
          rw [hq] at happ
          cases happ
      | some n =>
          rw [hq] at happ
          cases happ
          unfold execute_step_task
          by_cases hcanc : s.job.status = "cancelled"
          · rw [if_pos hcanc]
          · rw [if_neg hcanc]
            dsimp only
            by_cases hreg : registered = false
            · rw [if_pos hreg]
              exact le_trans (job_update_step_status_mono _ _ _)
                (job_update_step_status_mono _ _ _)
            · rw [if_neg hreg]
              cases outcome with
              | result success err =>
                  cases success <;>
                    exact le_trans (job_update_step_status_mono _ _ _)
                      (job_update_step_status_mono _ _ _)
              | raised msg =>
                  exact le_trans (job_update_step_status_mono _ _ _)
                    (job_update_step_status_mono _ _ _)
  | retryStep n force =>
      unfold sys_apply at happ
      cases hq : s.queue with
      | none =>
          rw [hq] at happ
          cases happ
          show s.job.current_step ≤ ((job_retry_step s.job n force).1).current_step
          simp only [job_retry_step]
          split_ifs <;> exact le_refl _
      | some m =>
          rw [hq] at happ
          cases happ
  | cancel =>
      unfold sys_apply at happ
      cases happ
      show s.job.current_step ≤ (job_cancel s.job).current_step
      unfold job_cancel
      split_ifs <;> exact le_refl _

theorem run_fail_current (j : JobState) (n : Nat) :
    (job_update_step_status (job_update_step_status j n "running") n
      "failed").current_step = j.current_step := by
  simp [job_update_step_status_current]

theorem run_fail_status (j : JobState) (n : Nat) :
    (job_update_step_status (job_update_step_status j n "running") n
      "failed").status = j.status := by
  simp [job_update_step_status_status]

theorem run_fail_steps (j : JobState) (n m : Nat) :
    (job_update_step_status (job_update_step_status j n "running") n
      "failed").steps m =
      if m = n then { j.steps n with status := "failed" } else j.steps m := by
  by_cases hm : m = n <;> simp [job_update_step_status_steps, hm]

theorem run_complete_current (j : JobState) (n : Nat) (h : j.current_step < n) :
    (job_update_step_status (job_update_step_status j n "running") n
      "completed").current_step = n := by
  simp [job_update_step_status_current, h]

theorem run_complete_status (j : JobState) (n : Nat) (h : j.current_step < n) :
    (job_update_step_status (job_update_step_status j n "running") n
      "completed").status = if 12 ≤ n then "completed" else j.status := by
  simp [job_update_step_status_status, job_update_step_status_current, h]

theorem run_complete_steps (j : JobState) (n m : Nat) :
    (job_update_step_status (job_update_step_status j n "running") n
      "completed").steps m =
      if m = n then { j.steps n with status := "completed" } else j.steps m := by
  by_cases hm : m = n <;> simp [job_update_step_status_steps, hm]

theorem sys_inv_init : sys_inv init_sys := by
  refine ⟨by decide, ?_, ?_, ?_, ?_, ?_⟩
  · intro n h1 _
    constructor
    · intro h
      simp [init_sys] at h
    · intro h
      have h0 : init_sys.job.current_step = 0 := rfl
      omega
  · intro n _ _ h
    simp [init_sys] at h
  · intro n _
    rfl
  · intro n h
    cases h
    exact ⟨rfl, by norm_num⟩
  · intro h
    simp [init_sys] at h

theorem inv_after_fail (s : SysState) (n : Nat) (hinv : sys_inv s)
    (hn : n = s.job.current_step + 1) (hn12 : n ≤ 12) :
    sys_inv ⟨job_update_step_status (job_update_step_status s.job n "running") n
      "failed", none⟩ := by
  obtain ⟨h12, hcomp, hfail, hout, hq, hdone⟩ := hinv
  refine ⟨?_, ?_, ?_, ?_, ?_, ?_⟩
  · show (job_update_step_status _ _ _).current_step ≤ 12
    rw [run_fail_current]
    exact h12
  · intro m h1 hm12
    show ((job_update_step_status _ _ _).steps m).status = "completed" ↔
      m ≤ (job_update_step_status _ _ _).current_step
    rw [run_fail_steps, run_fail_current]
    by_cases hm : m = n
    · subst hm
      rw [if_pos rfl]
      constructor
      · intro h
        simp at h
      · intro h
        exact absurd h (by omega)
    · rw [if_neg hm]
      exact hcomp m h1 hm12
  · intro m h1 hm12
    show ((job_update_step_status _ _ _).steps m).status = "failed" →
      m = (job_update_step_status _ _ _).current_step + 1
    rw [run_fail_steps, run_fail_current]
    by_cases hm : m = n
    · intro _
      omega
    · rw [if_neg hm]
      exact hfail m h1 hm12
  · intro m hm
    show ((job_update_step_status _ _ _).steps m).status = "pending"
    rw [run_fail_steps]
    have hmn : m ≠ n := by omega
    rw [if_neg hmn]
    exact hout m hm
  · intro m hm
    cases hm
  · show (job_update_step_status _ _ _).current_step = 12 →
      (job_update_step_status _ _ _).status = "completed"
    rw [run_fail_current, run_fail_status]
    exact hdone

theorem inv_after_complete (s : SysState) (n : Nat) (hinv : sys_inv s)
    (hn : n = s.job.current_step + 1) (hn12 : n ≤ 12) :
    sys_inv ⟨job_update_step_status (job_update_step_status s.job n "running") n
      "completed", (if n < 12 then [n + 1] else []).head?⟩ := by
  obtain ⟨h12, hcomp, hfail, hout, hq, hdone⟩ := hinv
  have hlt : s.job.current_step < n := by omega
  refine ⟨?_, ?_, ?_, ?_, ?_, ?_⟩
  · show (job_update_step_status _ _ _).current_step ≤ 12
    rw [run_complete_current _ _ hlt]
    exact hn12
  · intro m h1 hm12
    show ((job_update_step_status _ _ _).steps m).status = "completed" ↔
      m ≤ (job_update_step_status _ _ _).current_step
    rw [run_complete_steps, run_complete_current _ _ hlt]
    by_cases hm : m = n
    · subst hm
      rw [if_pos rfl]
      simp
    · rw [if_neg hm]
      rw [hcomp m h1 hm12]
      omega
  · intro m h1 hm12
    show ((job_update_step_status _ _ _).steps m).status = "failed" →
      m = (job_update_step_status _ _ _).current_step + 1
    rw [run_complete_steps, run_complete_current _ _ hlt]
    by_cases hm : m = n
    · subst hm
      rw [if_pos rfl]
      intro h
      simp at h
    · rw [if_neg hm]
      intro h
      have := hfail m h1 hm12 h
      omega
  · intro m hm
    show ((job_update_step_status _ _ _).steps m).status = "pending"
    rw [run_complete_steps]
    have hmn : m ≠ n := by omega
    rw [if_neg hmn]
    exact hout m hm
  · intro m hm
    show m = (job_update_step_status _ _ _).current_step + 1 ∧ m ≤ 12
    rw [run_complete_current _ _ hlt]
    by_cases hlt12 : n < 12
    · rw [if_pos hlt12] at hm
      cases hm
      exact ⟨rfl, by omega⟩
    · rw [if_neg hlt12] at hm
      cases hm
  · show (job_update_step_status _ _ _).current_step = 12 →
      (job_update_step_status _ _ _).status = "completed"
    rw [run_complete_current _ _ hlt, run_complete_status _ _ hlt]
    intro h
    rw [if_pos (by omega)]

theorem sys_inv_preserved {s s2 : SysState} {a : SysAction}
    (hok : not_forced a = true) (hinv : sys_inv s)
    (happ : sys_apply s a = some s2) : sys_inv s2 := by
  obtain ⟨h12, hcomp, hfail, hout, hq, hdone⟩ := hinv
  cases a with
  | runStep registered outcome =>
      unfold sys_apply at happ
      cases hqv : s.queue with
      | none =>
          rw [hqv] at happ
          cases happ
      | some n =>
          rw [hqv] at happ
          cases happ
          obtain ⟨hn, hn12⟩ := hq n hqv
          show sys_inv ⟨(execute_step_task s.job n registered outcome).1,
            ((execute_step_task s.job n registered outcome).2).head?⟩
          unfold execute_step_task
          by_cases hcanc : s.job.status = "cancelled"
          · rw [if_pos hcanc]
            exact ⟨h12, hcomp, hfail, hout, (by intro m hm; cases hm), hdone⟩
          · rw [if_neg hcanc]
            dsimp only
            by_cases hreg : registered = false
            · rw [if_pos hreg]
              exact inv_after_fail s n ⟨h12, hcomp, hfail, hout, hq, hdone⟩ hn hn12
            · rw [if_neg hreg]
              cases outcome with
              | result success err =>
                  cases success with
                  | true =>
                      exact inv_after_complete s n
                        ⟨h12, hcomp, hfail, hout, hq, hdone⟩ hn hn12
                  | false =>
                      exact inv_after_fail s n
                        ⟨h12, hcomp, hfail, hout, hq, hdone⟩ hn hn12
              | raised msg =>
                  exact inv_after_fail s n
                    ⟨h12, hcomp, hfail, hout, hq, hdone⟩ hn hn12
  | retryStep n force =>
      cases force with
      | true => cases hok
      | false =>
          unfold sys_apply at happ
          cases hqv : s.queue with
          | some m =>
              rw [hqv] at happ
              cases happ
          | none =>
              rw [hqv] at happ
              cases happ
              show sys_inv ⟨(job_retry_step s.job n false).1,
                ((job_retry_step s.job n false).2).head?⟩
              unfold job_retry_step
              by_cases hguard : (s.job.steps n).status = "failed" ∧
                  (s.job.steps n).retry_count < (s.job.steps n).max_retries
              · rw [if_neg (by simp [hguard])]
                dsimp only
                have hrange : 1 ≤ n ∧ n ≤ 12 := by
                  by_contra hcon
                  have hc2 : n < 1 ∨ 12 < n := by omega
                  have hp := hout n hc2
                  rw [hp] at hguard
                  exact absurd hguard.1 (by decide)
                have hncur := hfail n hrange.1 hrange.2 hguard.1
                refine ⟨h12, ?_, ?_, ?_, ?_, ?_⟩
                · intro m h1 hm12
                  dsimp only
                  by_cases hm : m = n
                  · subst hm
                    rw [if_pos rfl]
                    constructor
                    · intro h
                      simp at h
                    · intro h
                      exact absurd h (by omega)
                  · rw [if_neg hm]
                    exact hcomp m h1 hm12
                · intro m h1 hm12
                  dsimp only
                  by_cases hm : m = n
                  · subst hm
                    rw [if_pos rfl]
                    intro h
                    simp at h
                  · rw [if_neg hm]
                    exact hfail m h1 hm12
                · intro m hm
                  dsimp only
                  have hmn : m ≠ n := by omega
                  rw [if_neg hmn]
                  exact hout m hm
                · intro m hm
                  cases hm
                  exact ⟨hncur, hrange.2⟩
                · intro hcur
                  dsimp only
                  have hst := hdone hcur
                  rw [if_neg (by rw [hst]; decide)]
                  exact hst
              · rw [if_pos ⟨rfl, hguard⟩]
                exact ⟨h12, hcomp, hfail, hout, (by intro m hm; cases hm), hdone⟩
  | cancel =>
      unfold sys_apply at happ
      cases happ
      show sys_inv ⟨job_cancel s.job, s.queue⟩
      unfold job_cancel
      by_cases hg : s.job.status = "completed" ∨ s.job.status = "published"
      · rw [if_pos hg]
        exact ⟨h12, hcomp, hfail, hout, hq, hdone⟩
      · rw [if_neg hg]
        refine ⟨h12, hcomp, hfail, hout, hq, ?_⟩
        intro hcur
        exact absurd (Or.inl (hdone hcur)) hg

theorem sys_inv_reachable (s : SysState) (h : ReachableVia not_forced s) :
    sys_inv s := by
  induction h with
  | init => exact sys_inv_init
  | step hr hok happ ih => exact sys_inv_preserved hok ih happ

/-- C9 counterexample: through a forced manual retry (`retry_step` with
`force=true`, exposed by the API) a reachable state violates the invariant:
after step 1 completes, step 2 fails, and step 1 is force-retried, the job
has `current_step = 1` while step 1 is back to pending — the completed step
numbers no longer form `1..current_step`. -/
theorem forced_retry_breaks_invariant :
    ∃ s, ReachableVia any_action s ∧ 1 ≤ s.job.current_step ∧
      (s.job.steps 1).status ≠ "completed" := by
  obtain ⟨s, hs⟩ : ∃ x, run_actions init_sys forced_retry_actions = some x := ⟨_, rfl⟩
  have hreach := run_actions_reachable any_action forced_retry_actions init_sys s
    (fun a _ => rfl) ReachableVia.init hs
  have hval : Option.map (fun st => (st.job.current_step, (st.job.steps 1).status))
      (run_actions init_sys forced_retry_actions) = some (1, "pending") := by decide
  rw [hs] at hval
  simp at hval
  refine ⟨s, hreach, ?_, ?_⟩
  · omega
  · rw [hval.2]
    decide

/-- C9 amended: along every execution of the orchestration that uses no
forced manual retry, the completed step rows are exactly `1..current_step`
with no gaps and a job whose `current_step` reaches 12 has status completed;
and `current_step` never decreases under any transition at all, forced
retries included. -/
theorem completed_steps_contiguous :
    (∀ s, ReachableVia not_forced s →
      (∀ n, 1 ≤ n → n ≤ 12 →
        ((s.job.steps n).status = "completed" ↔ n ≤ s.job.current_step)) ∧
      (s.job.current_step = 12 → s.job.status = "completed")) ∧
    (∀ s a s2, sys_apply s a = some s2 →
      s.job.current_step ≤ s2.job.current_step) := by
  constructor
  · intro s hs
    obtain ⟨h12, hcomp, hfail, hout, hq, hdone⟩ := sys_inv_reachable s hs
    exact ⟨hcomp, hdone⟩
  · intro s a s2 happ
    exact sys_apply_current_step_mono s a s2 happ

/-- Witness for the amended C9 at the initial state. -/
theorem completed_steps_contiguous_witness :
    (∀ n, 1 ≤ n → n ≤ 12 →
      ((init_sys.job.steps n).status = "completed" ↔ n ≤ init_sys.job.current_step)) ∧
    (init_sys.job.current_step = 12 → init_sys.job.status = "completed") :=
  completed_steps_contiguous.1 init_sys ReachableVia.init

end GameGen
